import Mathlib

/-
Verification of the tile-resolution engine of open-elevation
(gdal_interfaces.py) against its design document.

The Python source is embedded shallowly:
  - numeric values flowing through the coordinate math are modelled as
    rationals, machine integers read from rasters as integers;
  - numpy 2-D arrays are lists of rows, and numpy indexing (including its
    negative-index wraparound) is modelled by npIdx / npGet, with none
    standing for IndexError;
  - fallible Python operations return Except String, .error standing for a
    raised exception;
  - external library behaviour reaching this code is a parameter: gdal.Open
    is a FileSystem function (none = undecodable / missing file), the osr
    coordinate transformation is carried per raster as a function returning
    Option (none = TransformPoint fault).
-/

namespace OpenElevation

/-- Python int() truncation toward zero, applied to a rational value. -/
def pyInt (q : ℚ) : ℤ := if 0 ≤ q then ⌊q⌋ else ⌈q⌉

/-- numpy astype int16: wrap into the signed 16-bit range modulo 2 to the 16. -/
def toInt16 (v : ℤ) : ℤ := (v + 32768) % 65536 - 32768

/-- numpy index resolution on one axis of length n: a nonnegative index is
valid below n, a negative index of magnitude at most n wraps from the end,
anything else raises IndexError (modelled as none). -/
def npIdx (n : ℕ) (i : ℤ) : Option ℕ :=
  if 0 ≤ i ∧ i < (n : ℤ) then some i.toNat
  else if -(n : ℤ) ≤ i ∧ i < 0 then some (i + (n : ℤ)).toNat
  else none

/-- numpy 2-D element access arr[ylin, xpix]: resolve the line index, select
the row, resolve the pixel index, read; the first failing step is the raised
IndexError, modelled by the Option bind chain ending in none. -/
def npGet (rows : List (List ℤ)) (ylin xpix : ℤ) : Option ℤ :=
  (npIdx rows.length ylin).bind (fun y =>
    rows[y]?.bind (fun row =>
      (npIdx row.length xpix).bind (fun x => row[x]?)))

/-- The six GDAL geotransform coefficients
(ulx, xres, xskew, uly, yskew, yres); the stored tuple geo_transform_inv has
the same shape. -/
structure Transform6 where
  t0 : ℚ
  t1 : ℚ
  t2 : ℚ
  t3 : ℚ
  t4 : ℚ
  t5 : ℚ
deriving DecidableEq

/-- One raster dataset as gdal.Open exposes it to this code: band sizes, the
geotransform, the band-1 pixel array, and the osr coordinate transformation
from WGS84 into the raster system ((lon, lat) to (xgeo, ygeo); none models a
TransformPoint fault). -/
structure RasterSrc where
  xSize : ℕ
  ySize : ℕ
  geo : Transform6
  band : List (List ℤ)
  ct : ℚ → ℚ → Option (ℚ × ℚ)

/-- gdal.Open as the code sees it: none when the file is missing or cannot be
decoded. -/
def FileSystem : Type := String → Option RasterSrc

/-- The determinant dev of the 2x2 pixel submatrix, exactly as loadMetadata
computes it. -/
def dev (g : Transform6) : ℚ := g.t1 * g.t5 - g.t2 * g.t4

def SEA_LEVEL : ℤ := 0

/-- One loaded GDALInterface after loadMetadata ran. -/
structure GDALInterface where
  tif_path : String
  src : RasterSrc
  geo_transform : Transform6
  geo_transform_inv : Transform6

/-- GDALInterface.loadMetadata: open the raster, raising when gdal.Open
yields None, then precompute the inverse geotransform; Python float division
raises ZeroDivisionError when dev is zero, the second error case. -/
def loadMetadata (fs : FileSystem) (tif_path : String) : Except String GDALInterface :=
  match fs tif_path with
  | none => .error ("Could not load GDAL file " ++ tif_path)
  | some src =>
    let gt := src.geo
    let d := dev gt
    if d = 0 then .error "ZeroDivisionError: float division by zero"
    else .ok { tif_path := tif_path, src := src, geo_transform := gt,
               geo_transform_inv :=
                 ⟨gt.t0, gt.t5 / d, -gt.t2 / d, gt.t3, -gt.t4 / d, gt.t1 / d⟩ }

/-- The pixel/line computation shared by lookup and lookup_cache: subtract
the origin entries of geo_transform_inv, apply its 2x2 part, truncate with
int(); the pair is (xpix, ylin). -/
def pixelOf (inv : Transform6) (xgeo ygeo : ℚ) : ℤ × ℤ :=
  let u := xgeo - inv.t0
  let v := ygeo - inv.t3
  (pyInt (inv.t1 * u + inv.t2 * v), pyInt (inv.t4 * u + inv.t5 * v))

/-- The last step of both lookup bodies: the sample read at the pixel, with
none standing for a raised IndexError, which returns SEA_LEVEL; the no-data
sentinel -32768 also maps to SEA_LEVEL. -/
def sampleToElevation : Option ℤ → ℤ
  | none => SEA_LEVEL
  | some v => if v ≠ -32768 then v else SEA_LEVEL

/-- The part of GDALInterface.lookup after the TransformPoint call, taking
its Option result: a raised TransformPoint fault (none) returns SEA_LEVEL;
otherwise the pixel is computed with pixelOf and read from the band. -/
def lookupAfterCT (band : List (List ℤ)) (inv : Transform6) : Option (ℚ × ℚ) → ℤ
  | none => SEA_LEVEL
  | some g =>
    sampleToElevation (npGet band (pixelOf inv g.1 g.2).2 (pixelOf inv g.1 g.2).1)

/-- GDALInterface.lookup: reproject (lon, lat), compute the pixel, read
points_array; every exception branch returns SEA_LEVEL. -/
def GDALInterface.lookup (itf : GDALInterface) (lat lon : ℚ) : ℤ :=
  lookupAfterCT itf.src.band itf.geo_transform_inv (itf.src.ct lon lat)

/-- The reprojected point together with the truncated pixel indices that
lookup computes for an input, when reprojection succeeds. -/
def GDALInterface.computedPixel (itf : GDALInterface) (lat lon : ℚ) : Option (ℤ × ℤ) :=
  (itf.src.ct lon lat).map (fun g => pixelOf itf.geo_transform_inv g.1 g.2)

/-- The state a GDALInterface keeps after load_all: the inverse geotransform
and the fully materialized int16 grid; handle, path and reprojection
machinery are gone. -/
structure CachedTile where
  geo_transform_inv : Transform6
  cache_array : List (List ℤ)
deriving DecidableEq

/-- GDALInterface.load_all: materialize band 1 as int16 and drop the rest. -/
def GDALInterface.load_all (itf : GDALInterface) : CachedTile :=
  { geo_transform_inv := itf.geo_transform_inv,
    cache_array := itf.src.band.map (fun row => row.map toInt16) }

/-- GDALInterface.lookup_cache: the same pixel math, but (xgeo, ygeo) is
(lon, lat) directly with no reprojection and the in-memory cache_array is
read; a raised IndexError and the no-data sentinel map to SEA_LEVEL. -/
def CachedTile.lookup_cache (c : CachedTile) (lat lon : ℚ) : ℤ :=
  sampleToElevation (npGet c.cache_array (pixelOf c.geo_transform_inv lon lat).2
    (pixelOf c.geo_transform_inv lon lat).1)

/-- The four corner coordinates of GDALInterface.get_corner_coords, each an
(x, y) pair. -/
structure Corners where
  top_left : ℚ × ℚ
  top_right : ℚ × ℚ
  bottom_left : ℚ × ℚ
  bottom_right : ℚ × ℚ

/-- GDALInterface.get_corner_coords. -/
def GDALInterface.get_corner_coords (itf : GDALInterface) : Corners :=
  let g := itf.geo_transform
  let lrx := g.t0 + (itf.src.xSize : ℚ) * g.t1
  let lry := g.t3 + (itf.src.ySize : ℚ) * g.t5
  { top_left := (g.t0, g.t3), top_right := (lrx, g.t3),
    bottom_left := (g.t0, lry), bottom_right := (lrx, lry) }

/-- One record of the summary JSON document: a file path and
(latMin, latMax, lngMin, lngMax). -/
structure SummaryRecord where
  file : String
  coords : ℚ × ℚ × ℚ × ℚ
deriving DecidableEq

/-- The record one opened tile contributes to the summary:
lmin and lmax are the y of the BOTTOM_RIGHT and TOP_RIGHT corners, lngmin
and lngmax the x of the TOP_LEFT and TOP_RIGHT corners. -/
def recordOf (p : String) (itf : GDALInterface) : SummaryRecord :=
  { file := p,
    coords := (itf.get_corner_coords.bottom_right.2,
               itf.get_corner_coords.top_right.2,
               itf.get_corner_coords.top_left.1,
               itf.get_corner_coords.top_right.1) }

/-- One loop step of create_summary_json: the open exception (first
argument) or the one raised further down the loop (second) aborts. -/
def consRecord (p : String) : Except String GDALInterface →
    Except String (List SummaryRecord) → Except String (List SummaryRecord)
  | .error e, _ => .error e
  | .ok _, .error e => .error e
  | .ok itf, .ok rest => .ok (recordOf p itf :: rest)

/-- The coordinate loop of GDALTileInterface.create_summary_json: each tif
of the folder is opened (through the LRU cache, whose hit or miss state does
not change the interface content read here, for any capacity of at least
one) and contributes one record taken from its corner coordinates; an
unreadable file raises and aborts the build. -/
def create_summary_json (fs : FileSystem) : List String → Except String (List SummaryRecord)
  | [] => .ok []
  | p :: rest => consRecord p (loadMetadata fs p) (create_summary_json fs rest)

/-- json.dump of the summary records; the document is modelled as the record
list itself, since dumping and re-loading these flat records is lossless. -/
def write_summary_json (rs : List SummaryRecord) : List SummaryRecord := rs

/-- json.load of the summary document, read_summary_json. -/
def read_summary_json (doc : List SummaryRecord) : List SummaryRecord := doc

/-- One entry dict as the index stores it; fields are optional because
_build_index mutates the entries in place, deleting keys in cache_all
mode. -/
structure CatalogEntry where
  file : Option String
  coords : Option (ℚ × ℚ × ℚ × ℚ)
  index_id : Option ℕ
  interface : Option CachedTile
deriving DecidableEq

/-- One rtree item: the numeric id passed to insert, the box
(left, bottom, right, top) and the attached object. -/
structure IndexItem where
  id : ℕ
  left : ℚ
  bottom : ℚ
  right : ℚ
  top : ℚ
  obj : CatalogEntry
deriving DecidableEq

/-- The entry mutation of the cache_all branch of _build_index: the file is
re-opened fully cached (the open exception propagating) and the file,
index_id and coords keys are deleted from the entry. -/
def cachedEntry : Except String GDALInterface → Except String CatalogEntry
  | .error e => .error e
  | .ok itf => .ok { file := none, coords := none, index_id := none,
                     interface := some itf.load_all }

/-- The object _build_index attaches to the inserted item: in non cache_all
mode the entry keeps its keys, with index_id set to the never-incremented
counter value 1. -/
def entryObj (fs : FileSystem) (cache_all : Bool) (r : SummaryRecord) :
    Except String CatalogEntry :=
  if cache_all then cachedEntry (loadMetadata fs r.file)
  else .ok { file := some r.file, coords := some r.coords, index_id := some 1,
             interface := none }

/-- One rtree insert of _build_index, with the never-incremented id 1 and
the box axes bound to (left=latMin, bottom=lngMin, right=latMax,
top=lngMax); rtree raises RTreeError when a minimum of the box exceeds its
maximum. -/
def insertItem (r : SummaryRecord) (obj : CatalogEntry) : Except String IndexItem :=
  if r.coords.1 ≤ r.coords.2.1 ∧ r.coords.2.2.1 ≤ r.coords.2.2.2 then
    .ok { id := 1, left := r.coords.1, bottom := r.coords.2.2.1,
          right := r.coords.2.1, top := r.coords.2.2.2, obj := obj }
  else .error "RTreeError"

/-- The insert step applied to the attached object, the raised entry
exception propagating first. -/
def attachObj (r : SummaryRecord) : Except String CatalogEntry →
    Except String IndexItem
  | .error e => .error e
  | .ok obj => insertItem r obj

/-- The full per-record step of the _build_index loop. -/
def itemFor (fs : FileSystem) (cache_all : Bool) (r : SummaryRecord) :
    Except String IndexItem :=
  attachObj r (entryObj fs cache_all r)

/-- Sequencing of the loop: the first raised exception aborts. -/
def consItems : Except String IndexItem → Except String (List IndexItem) →
    Except String (List IndexItem)
  | .error e, _ => .error e
  | .ok _, .error e => .error e
  | .ok it, .ok items => .ok (it :: items)

/-- GDALTileInterface._build_index: index_id is set to 1 once before the
loop and never incremented, so every record is inserted with id 1 and, in
non cache_all mode, index_id 1 on its entry. -/
def build_index (fs : FileSystem) (cache_all : Bool) :
    List SummaryRecord → Except String (List IndexItem)
  | [] => .ok []
  | r :: rest => consItems (itemFor fs cache_all r) (build_index fs cache_all rest)

/-- index.intersection at the point (lat, lng): rtree treats the point as a
degenerate box and returns the items whose box contains it, boundaries
included; the enumeration order of the library is modelled as insertion
order. -/
def intersection (items : List IndexItem) (lat lng : ℚ) : List IndexItem :=
  items.filter
    (fun it => decide (it.left ≤ lat ∧ lat ≤ it.right ∧ it.bottom ≤ lng ∧ lng ≤ it.top))

/-- A live GDALInterface together with the allocation counter value that
identifies this particular Python object: each GDALInterface(path) call
yields a new object, so a fresh id marks a fresh instance. -/
structure Tile where
  id : ℕ
  itf : GDALInterface

/-- The cache fields of GDALTileInterface, with the source field names.
cached_open_interfaces is the recency list (least recently used first);
cached_open_interfaces_dict is the path-to-instance dict, an association
list in Python insertion order. nextId instruments object identity and
closed records the ids on which close() was called at eviction. -/
structure TileCache where
  cached_open_interfaces : List String
  cached_open_interfaces_dict : List (String × Tile)
  open_interfaces_size : ℕ
  nextId : ℕ
  closed : List ℕ

/-- Python dict read d[p] on the association list, first matching key. -/
def lookupD : List (String × Tile) → String → Option Tile
  | [], _ => none
  | (q, t) :: rest, p => if q = p then some t else lookupD rest p

/-- Python del d[p] on the association list, removing the first matching
entry (keys are unique in every reachable dict). -/
def eraseD : List (String × Tile) → String → List (String × Tile)
  | [], _ => []
  | (q, t) :: rest, p => if q = p then rest else (q, t) :: eraseD rest p

/-- The keys of the dict, in insertion order. -/
def keys (t : List (String × Tile)) : List String := t.map Prod.fst

/-- GDALTileInterface._open_gdal_interface. On a hit the path moves to the
most recently used end of the recency list and the cached instance is
returned. On a miss GDALInterface(path) runs first, so an open exception
propagates with the state unchanged; otherwise the fresh instance is
appended as most recently used and, when the list now exceeds
open_interfaces_size, the least recently used path is popped from the front,
its interface closed and its dict entry deleted (the dict read at eviction
always finds the entry in reachable states; a hypothetical absent key is
modelled as closing nothing). -/
def open_gdal_interface (fs : FileSystem) (c : TileCache) (path : String) :
    Except String (Tile × TileCache) :=
  match lookupD c.cached_open_interfaces_dict path with
  | some t =>
      .ok (t, { c with
                cached_open_interfaces := (c.cached_open_interfaces.erase path) ++ [path] })
  | none =>
      match loadMetadata fs path with
      | .error e => .error e
      | .ok itf =>
        let t : Tile := { id := c.nextId, itf := itf }
        let rec1 := c.cached_open_interfaces ++ [path]
        let dict1 := c.cached_open_interfaces_dict ++ [(path, t)]
        if rec1.length > c.open_interfaces_size then
          let evict := rec1.headD path
          let closedIds :=
            match lookupD dict1 evict with
            | some te => [te.id]
            | none => []
          .ok (t, { cached_open_interfaces := rec1.tail,
                    cached_open_interfaces_dict := eraseD dict1 evict,
                    open_interfaces_size := c.open_interfaces_size,
                    nextId := c.nextId + 1,
                    closed := c.closed ++ closedIds })
        else
          .ok (t, { c with cached_open_interfaces := rec1,
                           cached_open_interfaces_dict := dict1,
                           nextId := c.nextId + 1 })

/-- A sequence of _open_gdal_interface calls, threading the cache state and
discarding the returned instances; the first exception aborts. -/
def acquireList (fs : FileSystem) (c : TileCache) : List String → Except String TileCache
  | [] => .ok c
  | p :: rest =>
    match open_gdal_interface fs c p with
    | .error e => .error e
    | .ok r => acquireList fs r.2 rest

/-- The cache state GDALTileInterface.__init__ sets up, for a given
open_interfaces_size. -/
def initCache (n : ℕ) : TileCache :=
  { cached_open_interfaces := [], cached_open_interfaces_dict := [],
    open_interfaces_size := n, nextId := 0, closed := [] }

/-- The request-serving state of one GDALTileInterface: the built spatial
index, the cache_all flag and the tile cache. -/
structure GDALTileInterface where
  items : List IndexItem
  cache_all : Bool
  cache : TileCache

/-- The continuation of GDALTileInterface.lookup after the cache fetch in
non cache_all mode: the open exception propagates unchanged; on success the
per-tile lookup (itself total) supplies the value and the mutated cache is
kept. int() of the integer lookup result is the identity and left
implicit. -/
def afterOpen (s : GDALTileInterface) (lat lng : ℚ) :
    Except String (Tile × TileCache) → Except String (ℤ × GDALTileInterface)
  | .error e => .error e
  | .ok (t, c2) => .ok (t.itf.lookup lat lng, { s with cache := c2 })

/-- The non cache_all resolve step on the first matched entry: reading a
missing file key raises KeyError; otherwise the file goes through
_open_gdal_interface. -/
def resolveFile (fs : FileSystem) (s : GDALTileInterface) (lat lng : ℚ) :
    Option String → Except String (ℤ × GDALTileInterface)
  | none => .error "KeyError: file"
  | some path => afterOpen s lat lng (open_gdal_interface fs s.cache path)

/-- The cache_all resolve step on the first matched entry: reading a missing
interface key raises KeyError; otherwise the stored pre-opened instance
answers. -/
def resolveCached (s : GDALTileInterface) (lat lng : ℚ) :
    Option CachedTile → Except String (ℤ × GDALTileInterface)
  | none => .error "KeyError: interface"
  | some tile => .ok (tile.lookup_cache lat lng, s)

/-- GDALTileInterface.lookup. There is no try/except here: an empty index
query returns SEA_LEVEL; otherwise the first returned item wins and is
resolved through the branch of the configured mode, where any raised
exception propagates to the caller. -/
def GDALTileInterface.lookup (fs : FileSystem) (s : GDALTileInterface) (lat lng : ℚ) :
    Except String (ℤ × GDALTileInterface) :=
  match intersection s.items lat lng with
  | [] => .ok (SEA_LEVEL, s)
  | it :: _ =>
    if s.cache_all = false then resolveFile fs s lat lng it.obj.file
    else resolveCached s lat lng it.obj.interface

/-- The index build applied to the loaded summary document, a raised build
exception propagating. -/
def buildFromSummary (fs : FileSystem) : Except String (List SummaryRecord) →
    Except String (List IndexItem)
  | .error e => .error e
  | .ok summary => build_index fs false (read_summary_json (write_summary_json summary))

/-- The round trip of claim C8: build the catalog for the files of the
folder, serialize, load back, build the spatial index (non cache_all
mode). -/
def catalog_roundtrip (fs : FileSystem) (files : List String) :
    Except String (List IndexItem) :=
  buildFromSummary fs (create_summary_json fs files)

/-
Concrete fixtures used by witnesses and counterexamples.
-/

/-- A well-formed 1x1 north-up raster: one pixel of value 5, unit
resolution, identity reprojection. -/
def srcA : RasterSrc :=
  { xSize := 1, ySize := 1, geo := ⟨0, 1, 0, 0, 0, -1⟩, band := [[5]],
    ct := fun lon lat => some (lon, lat) }

/-- A filesystem on which every path opens as srcA. -/
def fsA : FileSystem := fun _ => some srcA

/-- The interface loadMetadata produces for a path on fsA. -/
def itfA (p : String) : GDALInterface :=
  { tif_path := p, src := srcA, geo_transform := srcA.geo,
    geo_transform_inv :=
      ⟨srcA.geo.t0, srcA.geo.t5 / dev srcA.geo, -srcA.geo.t2 / dev srcA.geo,
       srcA.geo.t3, -srcA.geo.t4 / dev srcA.geo, srcA.geo.t1 / dev srcA.geo⟩ }

theorem loadMetadata_fsA (p : String) : loadMetadata fsA p = .ok (itfA p) := by
  show (if dev srcA.geo = 0 then _ else _) = _
  rw [if_neg (by norm_num [dev, srcA])]
  rfl

/-
Association-list helper lemmas for the cache dict.
-/

theorem keys_append (t1 t2 : List (String × Tile)) :
    keys (t1 ++ t2) = keys t1 ++ keys t2 := List.map_append _ t1 t2

theorem lookupD_eq_none (t : List (String × Tile)) (p : String) :
    lookupD t p = none ↔ p ∉ keys t := by
  induction t with
  | nil => simp [lookupD, keys]
  | cons kv rest ih =>
    obtain ⟨q, v⟩ := kv
    by_cases h : q = p
    · subst h
      simp [lookupD, keys]
    · simp [lookupD, keys, h, ih, Ne.symm h]

theorem lookupD_append_of_none (t1 t2 : List (String × Tile)) (p : String)
    (h : lookupD t1 p = none) : lookupD (t1 ++ t2) p = lookupD t2 p := by
  induction t1 with
  | nil => simp
  | cons kv rest ih =>
    obtain ⟨q, v⟩ := kv
    by_cases hq : q = p
    · simp [lookupD, hq] at h
    · simp [lookupD, hq] at h ⊢
      exact ih h

theorem lookupD_append_of_some (t1 t2 : List (String × Tile)) (p : String) (t : Tile)
    (h : lookupD t1 p = some t) : lookupD (t1 ++ t2) p = some t := by
  induction t1 with
  | nil => simp [lookupD] at h
  | cons kv rest ih =>
    obtain ⟨q, v⟩ := kv
    by_cases hq : q = p
    · simp [lookupD, hq] at h ⊢
      exact h
    · simp [lookupD, hq] at h ⊢
      exact ih h

theorem lookupD_eraseD_of_ne (t : List (String × Tile)) (p q : String) (h : q ≠ p) :
    lookupD (eraseD t p) q = lookupD t q := by
  induction t with
  | nil => simp [eraseD]
  | cons kv rest ih =>
    obtain ⟨k, v⟩ := kv
    by_cases hk : k = p
    · subst hk
      simp [eraseD, lookupD, Ne.symm h]
    · simp [eraseD, lookupD, hk]
      by_cases hkq : k = q
      · simp [hkq]
      · simp [hkq, ih]

theorem keys_eraseD (t : List (String × Tile)) (p : String) :
    keys (eraseD t p) = (keys t).erase p := by
  induction t with
  | nil => simp [eraseD, keys]
  | cons kv rest ih =>
    obtain ⟨k, v⟩ := kv
    by_cases hk : k = p
    · subst hk
      simp [eraseD, keys, List.erase_cons]
    · simp [eraseD, keys, hk, List.erase_cons]
      exact ih

theorem lookupD_eraseD_self (t : List (String × Tile)) (p : String)
    (h : (keys t).Nodup) : lookupD (eraseD t p) p = none := by
  rw [lookupD_eq_none, keys_eraseD]
  intro hmem
  exact (List.Nodup.not_mem_erase h) hmem

/-
The table of instances opened for a run of fresh distinct paths, ids counting
up from k; it characterizes the dict contents after filling the cache.
-/

def freshTable (itfOf : String → GDALInterface) (k : ℕ) : List String → List (String × Tile)
  | [] => []
  | p :: rest => (p, ⟨k, itfOf p⟩) :: freshTable itfOf (k + 1) rest

theorem keys_freshTable (itfOf : String → GDALInterface) (k : ℕ) (ps : List String) :
    keys (freshTable itfOf k ps) = ps := by
  induction ps generalizing k with
  | nil => rfl
  | cons p rest ih =>
    simp only [freshTable, keys, List.map_cons, List.cons.injEq, true_and]
    exact ih (k + 1)

theorem freshTable_concat (itfOf : String → GDALInterface) (k : ℕ) (xs : List String)
    (y : String) :
    freshTable itfOf k (xs ++ [y]) =
      freshTable itfOf k xs ++ [(y, ⟨k + xs.length, itfOf y⟩)] := by
  induction xs generalizing k with
  | nil => simp [freshTable]
  | cons x rest ih =>
    simp [freshTable, ih]
    omega

theorem lookupD_freshTable (itfOf : String → GDALInterface) (k : ℕ) (ps : List String)
    (i : ℕ) (hi : i < ps.length) (hnd : ps.Nodup) :
    lookupD (freshTable itfOf k ps) (ps.get ⟨i, hi⟩) =
      some ⟨k + i, itfOf (ps.get ⟨i, hi⟩)⟩ := by
  induction ps generalizing k i with
  | nil => simp at hi
  | cons p rest ih =>
    cases i with
    | zero => simp [freshTable, lookupD]
    | succ j =>
      have hj : j < rest.length := by simpa using hi
      have hmem : rest.get ⟨j, hj⟩ ∈ rest := List.get_mem rest j hj
      have hne : p ≠ rest.get ⟨j, hj⟩ := by
        intro hcontra
        exact (List.nodup_cons.mp hnd).1 (hcontra ▸ hmem)
      have : ((p :: rest).get ⟨j + 1, hi⟩) = rest.get ⟨j, hj⟩ := rfl
      rw [this]
      simp only [freshTable, lookupD, if_neg hne]
      rw [ih (k + 1) j hj (List.nodup_cons.mp hnd).2]
      congr 2
      omega

theorem acquireList_cons (fs : FileSystem) (c : TileCache) (p : String)
    (rest : List String) (t : Tile) (c2 : TileCache)
    (h : open_gdal_interface fs c p = .ok (t, c2)) :
    acquireList fs c (p :: rest) = acquireList fs c2 rest := by
  rw [acquireList, h]

/-
Filling the cache: acquiring fresh distinct loadable paths that fit within
the capacity appends them in order, with ids counting up from the current
counter, and closes nothing.
-/

theorem acquireList_fill (fs : FileSystem) (itfOf : String → GDALInterface)
    (ps : List String) (c : TileCache)
    (hnd : (c.cached_open_interfaces ++ ps).Nodup)
    (hkeys : keys c.cached_open_interfaces_dict = c.cached_open_interfaces)
    (hlen : c.cached_open_interfaces.length + ps.length ≤ c.open_interfaces_size)
    (hload : ∀ p ∈ ps, loadMetadata fs p = .ok (itfOf p)) :
    acquireList fs c ps = .ok
      { cached_open_interfaces := c.cached_open_interfaces ++ ps,
        cached_open_interfaces_dict :=
          c.cached_open_interfaces_dict ++ freshTable itfOf c.nextId ps,
        open_interfaces_size := c.open_interfaces_size,
        nextId := c.nextId + ps.length,
        closed := c.closed } := by
  induction ps generalizing c with
  | nil => simp [acquireList, freshTable]
  | cons p rest ih =>
    have hp_not : p ∉ c.cached_open_interfaces := by
      have := (List.nodup_append.mp hnd).2.2
      intro hmem
      exact this hmem (List.mem_cons_self p rest)
    have hnone : lookupD c.cached_open_interfaces_dict p = none := by
      rw [lookupD_eq_none, hkeys]
      exact hp_not
    have hopen : open_gdal_interface fs c p = .ok
        (⟨c.nextId, itfOf p⟩,
          { c with
            cached_open_interfaces := c.cached_open_interfaces ++ [p],
            cached_open_interfaces_dict :=
              c.cached_open_interfaces_dict ++ [(p, ⟨c.nextId, itfOf p⟩)],
            nextId := c.nextId + 1 }) := by
      have hfit : ¬ (c.cached_open_interfaces ++ [p]).length > c.open_interfaces_size := by
        simp only [List.length_append, List.length_cons, List.length_nil]
        simp only [List.length_cons] at hlen
        omega
      rw [open_gdal_interface, hnone, hload p (List.mem_cons_self p rest)]
      simp only [if_neg hfit]
    rw [acquireList_cons fs c p rest _ _ hopen]
    rw [ih]
    · simp only [Except.ok.injEq]
      congr 1
      · simp [List.append_assoc]
      · simp only [List.append_assoc, List.singleton_append, freshTable]
      · simp only [List.length_cons]
        omega
    · simpa [List.append_assoc] using hnd
    · rw [keys_append, hkeys]
      rfl
    · simp only [List.length_append, List.length_cons, List.length_nil]
      simp only [List.length_cons] at hlen
      omega
    · intro q hq
      exact hload q (List.mem_cons_of_mem p hq)

/-- The miss-with-eviction branch of _open_gdal_interface, spelled out: the
fresh instance gets the current counter, the least recently used path is
popped from the front, its entry is deleted and its instance id recorded as
closed. -/
theorem open_evict (fs : FileSystem) (c : TileCache) (p : String) (itf : GDALInterface)
    (hmiss : lookupD c.cached_open_interfaces_dict p = none)
    (hload : loadMetadata fs p = .ok itf)
    (hover : c.cached_open_interfaces.length + 1 > c.open_interfaces_size) :
    open_gdal_interface fs c p = .ok
      (⟨c.nextId, itf⟩,
        { cached_open_interfaces := (c.cached_open_interfaces ++ [p]).tail,
          cached_open_interfaces_dict :=
            eraseD (c.cached_open_interfaces_dict ++ [(p, ⟨c.nextId, itf⟩)])
              ((c.cached_open_interfaces ++ [p]).headD p),
          open_interfaces_size := c.open_interfaces_size,
          nextId := c.nextId + 1,
          closed := c.closed ++
            (match lookupD (c.cached_open_interfaces_dict ++ [(p, ⟨c.nextId, itf⟩)])
                ((c.cached_open_interfaces ++ [p]).headD p) with
              | some te => [te.id]
              | none => []) }) := by
  simp only [open_gdal_interface, hmiss, hload]
  rw [if_pos (by simpa using hover)]

/-- acquireList distributes over list append, stopping at the first raised
exception. -/
theorem acquireList_append (fs : FileSystem) (c : TileCache) (xs ys : List String) :
    acquireList fs c (xs ++ ys) =
      match acquireList fs c xs with
      | .error e => .error e
      | .ok c2 => acquireList fs c2 ys := by
  induction xs generalizing c with
  | nil => rw [List.nil_append, acquireList]
  | cons x xs ih =>
    rw [List.cons_append, acquireList, acquireList]
    cases h : open_gdal_interface fs c x with
    | error e => rfl
    | ok r => exact ih r.2

theorem acquireList_append_ok (fs : FileSystem) (c : TileCache) (xs ys : List String)
    (c2 : TileCache) (h : acquireList fs c xs = .ok c2) :
    acquireList fs c (xs ++ ys) = acquireList fs c2 ys := by
  rw [acquireList_append, h]

/-- Claim C2: starting empty with capacity N and acquiring N+1 distinct
loadable paths p1, rest in order, the final state keeps exactly the paths of
rest in recency order, their dict entries carry the originally opened
instances (path number i of rest keeps id 1+i), the entry of p1 is gone and
its instance (id 0) is the one closed; re-acquiring p1 then opens a fresh
instance with the new id N+1, which is not the original id 0. -/
theorem tile_cache_evicts_lru (fs : FileSystem) (itfOf : String → GDALInterface)
    (N : ℕ) (p1 : String) (rest : List String)
    (hlen : rest.length = N) (hnd : (p1 :: rest).Nodup)
    (hload : ∀ p ∈ p1 :: rest, loadMetadata fs p = .ok (itfOf p)) :
    acquireList fs (initCache N) (p1 :: rest) = .ok
      { cached_open_interfaces := rest,
        cached_open_interfaces_dict := freshTable itfOf 1 rest,
        open_interfaces_size := N, nextId := N + 1, closed := [0] } ∧
    lookupD (freshTable itfOf 1 rest) p1 = none ∧
    (∀ i, ∀ hi : i < rest.length, lookupD (freshTable itfOf 1 rest) (rest.get ⟨i, hi⟩)
        = some ⟨1 + i, itfOf (rest.get ⟨i, hi⟩)⟩) ∧
    (∃ st2, open_gdal_interface fs
      { cached_open_interfaces := rest,
        cached_open_interfaces_dict := freshTable itfOf 1 rest,
        open_interfaces_size := N, nextId := N + 1, closed := [0] } p1
      = .ok (⟨N + 1, itfOf p1⟩, st2)) ∧
    N + 1 ≠ 0 := by
  have hp1_not : p1 ∉ rest := (List.nodup_cons.mp hnd).1
  have hrest_nd : rest.Nodup := (List.nodup_cons.mp hnd).2
  have hmiss1 : lookupD (freshTable itfOf 1 rest) p1 = none := by
    rw [lookupD_eq_none, keys_freshTable]
    exact hp1_not
  refine ⟨?_, hmiss1,
    fun i hi => lookupD_freshTable itfOf 1 rest i hi hrest_nd,
    ⟨_, open_evict fs _ p1 (itfOf p1) hmiss1 (hload p1 (List.mem_cons_self _ _))
      (by show rest.length + 1 > N; omega)⟩, by omega⟩
  rcases rest.eq_nil_or_concat with rfl | ⟨mid, pl, rfl⟩
  · -- N = 0: the single acquired path evicts itself
    have hN : N = 0 := by simpa using hlen.symm
    subst hN
    have hopen : open_gdal_interface fs (initCache 0) p1 = .ok
        (⟨0, itfOf p1⟩,
          { cached_open_interfaces := [],
            cached_open_interfaces_dict := [],
            open_interfaces_size := 0, nextId := 1, closed := [0] }) := by
      have h := open_evict fs (initCache 0) p1 (itfOf p1)
        (by rw [lookupD_eq_none]; simp [initCache, keys])
        (hload p1 (List.mem_cons_self p1 []))
        (by simp [initCache])
      simpa [initCache, eraseD, lookupD] using h
    rw [acquireList_cons fs _ p1 [] _ _ hopen, acquireList]
    rfl
  · -- N = mid.length + 1: fill p1 :: mid, then pl evicts p1
    simp only [List.concat_eq_append] at hnd hload hlen ⊢
    have hN : mid.length + 1 = N := by simpa using hlen
    subst hN
    have hnd2 : ((p1 :: mid) ++ [pl]).Nodup := by simpa using hnd
    have hnd_front : (p1 :: mid).Nodup := (List.nodup_append.mp hnd2).1
    have hpl_not : pl ∉ p1 :: mid := by
      intro hmem
      exact (List.nodup_append.mp hnd2).2.2 hmem (List.mem_singleton.mpr rfl)
    have hload_front : ∀ p ∈ p1 :: mid, loadMetadata fs p = .ok (itfOf p) := by
      intro q hq
      apply hload
      rcases List.mem_cons.mp hq with h | h
      · exact h ▸ List.mem_cons_self _ _
      · exact List.mem_cons_of_mem _ (List.mem_append_left _ h)
    have hfill : acquireList fs (initCache (mid.length + 1)) (p1 :: mid) = .ok
        { cached_open_interfaces := p1 :: mid,
          cached_open_interfaces_dict := freshTable itfOf 0 (p1 :: mid),
          open_interfaces_size := mid.length + 1, nextId := mid.length + 1,
          closed := [] } := by
      have h := acquireList_fill fs itfOf (p1 :: mid) (initCache (mid.length + 1))
        (by show (([] : List String) ++ (p1 :: mid)).Nodup; simpa using hnd_front)
        rfl
        (by show ([] : List String).length + (p1 :: mid).length ≤ mid.length + 1; simp)
        hload_front
      simpa [initCache] using h
    have hopen : open_gdal_interface fs
        { cached_open_interfaces := p1 :: mid,
          cached_open_interfaces_dict := freshTable itfOf 0 (p1 :: mid),
          open_interfaces_size := mid.length + 1, nextId := mid.length + 1,
          closed := [] } pl = .ok
        (⟨mid.length + 1, itfOf pl⟩,
          { cached_open_interfaces := mid ++ [pl],
            cached_open_interfaces_dict := freshTable itfOf 1 (mid ++ [pl]),
            open_interfaces_size := mid.length + 1, nextId := mid.length + 1 + 1,
            closed := [0] }) := by
      have h := open_evict fs
        { cached_open_interfaces := p1 :: mid,
          cached_open_interfaces_dict := freshTable itfOf 0 (p1 :: mid),
          open_interfaces_size := mid.length + 1, nextId := mid.length + 1,
          closed := [] } pl (itfOf pl)
        (by rw [lookupD_eq_none, keys_freshTable]; exact hpl_not)
        (hload pl (List.mem_cons_of_mem _ (List.mem_append_right _ (List.mem_singleton.mpr rfl))))
        (by show (p1 :: mid).length + 1 > mid.length + 1; simp)
      simpa [freshTable, eraseD, lookupD, freshTable_concat, Nat.add_comm] using h
    rw [show p1 :: (mid ++ [pl]) = (p1 :: mid) ++ [pl] from rfl]
    rw [acquireList_append_ok fs _ _ _ _ hfill]
    rw [acquireList_cons fs _ pl [] _ _ hopen, acquireList]

/-- Concrete run of the LRU eviction scenario at capacity 1 with paths a
and b on fsA. -/
theorem tile_cache_evicts_lru_witness :
    acquireList fsA (initCache 1) ("a" :: ["b"]) = .ok
      { cached_open_interfaces := ["b"],
        cached_open_interfaces_dict := freshTable itfA 1 ["b"],
        open_interfaces_size := 1, nextId := 1 + 1, closed := [0] } ∧
    lookupD (freshTable itfA 1 ["b"]) "a" = none ∧
    (∀ i, ∀ hi : i < (["b"] : List String).length,
      lookupD (freshTable itfA 1 ["b"]) ((["b"] : List String).get ⟨i, hi⟩)
        = some ⟨1 + i, itfA ((["b"] : List String).get ⟨i, hi⟩)⟩) ∧
    (∃ st2, open_gdal_interface fsA
      { cached_open_interfaces := ["b"],
        cached_open_interfaces_dict := freshTable itfA 1 ["b"],
        open_interfaces_size := 1, nextId := 1 + 1, closed := [0] } "a"
      = .ok (⟨1 + 1, itfA "a"⟩, st2)) ∧
    1 + 1 ≠ 0 :=
  tile_cache_evicts_lru fsA itfA 1 "a" ["b"] rfl (by decide)
    (fun p _ => loadMetadata_fsA p)

/-- Claim C3: a path already present in the cache is returned from the dict
with no re-open and moved to the most recently used position; consequently,
after filling capacity N with the distinct paths p1, p2, mid, re-acquiring
p1 and then acquiring the fresh path q, the evicted victim is p2 (the
instance with id 1 is closed and the key p2 deleted) while p1 survives with
its original instance id 0. -/
theorem tile_cache_hit_moves_to_mru (fs : FileSystem) (itfOf : String → GDALInterface)
    (N : ℕ) (p1 p2 q : String) (mid : List String)
    (hlen : (p1 :: p2 :: mid).length = N)
    (hnd : (q :: p1 :: p2 :: mid).Nodup)
    (hload : ∀ p ∈ q :: p1 :: p2 :: mid, loadMetadata fs p = .ok (itfOf p)) :
    (∀ c t, lookupD c.cached_open_interfaces_dict p1 = some t →
      open_gdal_interface fs c p1 = .ok
        (t, { c with cached_open_interfaces :=
                (c.cached_open_interfaces.erase p1) ++ [p1] })) ∧
    (∃ st1 st2 t3 st3,
      acquireList fs (initCache N) (p1 :: p2 :: mid) = .ok st1 ∧
      open_gdal_interface fs st1 p1 = .ok (⟨0, itfOf p1⟩, st2) ∧
      st2.nextId = st1.nextId ∧
      st2.cached_open_interfaces = (p2 :: mid) ++ [p1] ∧
      open_gdal_interface fs st2 q = .ok (t3, st3) ∧
      lookupD st3.cached_open_interfaces_dict p2 = none ∧
      st3.closed = [1] ∧
      lookupD st3.cached_open_interfaces_dict p1 = some ⟨0, itfOf p1⟩) := by
  have h1 : ∀ c t, lookupD c.cached_open_interfaces_dict p1 = some t →
      open_gdal_interface fs c p1 = .ok
        (t, { c with cached_open_interfaces :=
                (c.cached_open_interfaces.erase p1) ++ [p1] }) := by
    intro c t h
    simp only [open_gdal_interface, h]
  refine ⟨h1, ?_⟩
  subst hlen
  have hq_not : q ∉ p1 :: p2 :: mid := (List.nodup_cons.mp hnd).1
  have hps_nd : (p1 :: p2 :: mid).Nodup := (List.nodup_cons.mp hnd).2
  have hp1p2 : p1 ≠ p2 := by
    intro h
    exact (List.nodup_cons.mp hps_nd).1 (h ▸ List.mem_cons_self _ _)
  have hp2_mid : p2 ∉ mid := (List.nodup_cons.mp (List.nodup_cons.mp hps_nd).2).1
  have hp2q : p2 ≠ q := by
    intro h
    exact hq_not (h ▸ List.mem_cons_of_mem _ (List.mem_cons_self _ _))
  have hload_ps : ∀ p ∈ p1 :: p2 :: mid, loadMetadata fs p = .ok (itfOf p) :=
    fun p hp => hload p (List.mem_cons_of_mem _ hp)
  have hfill : acquireList fs (initCache (p1 :: p2 :: mid).length) (p1 :: p2 :: mid) = .ok
      { cached_open_interfaces := p1 :: p2 :: mid,
        cached_open_interfaces_dict := freshTable itfOf 0 (p1 :: p2 :: mid),
        open_interfaces_size := (p1 :: p2 :: mid).length,
        nextId := (p1 :: p2 :: mid).length, closed := [] } := by
    have h := acquireList_fill fs itfOf (p1 :: p2 :: mid)
      (initCache (p1 :: p2 :: mid).length)
      (by show (([] : List String) ++ _).Nodup; simpa using hps_nd)
      rfl
      (by show ([] : List String).length + _ ≤ _; simp [initCache])
      hload_ps
    simpa [initCache] using h
  have hhit : open_gdal_interface fs
      { cached_open_interfaces := p1 :: p2 :: mid,
        cached_open_interfaces_dict := freshTable itfOf 0 (p1 :: p2 :: mid),
        open_interfaces_size := (p1 :: p2 :: mid).length,
        nextId := (p1 :: p2 :: mid).length, closed := [] } p1 = .ok
      (⟨0, itfOf p1⟩,
        { cached_open_interfaces := (p2 :: mid) ++ [p1],
          cached_open_interfaces_dict := freshTable itfOf 0 (p1 :: p2 :: mid),
          open_interfaces_size := (p1 :: p2 :: mid).length,
          nextId := (p1 :: p2 :: mid).length, closed := [] }) := by
    have h := h1
      { cached_open_interfaces := p1 :: p2 :: mid,
        cached_open_interfaces_dict := freshTable itfOf 0 (p1 :: p2 :: mid),
        open_interfaces_size := (p1 :: p2 :: mid).length,
        nextId := (p1 :: p2 :: mid).length, closed := [] }
      ⟨0, itfOf p1⟩ (by simp [freshTable, lookupD])
    simpa [List.erase_cons] using h
  have hopen3 := open_evict fs
      { cached_open_interfaces := (p2 :: mid) ++ [p1],
        cached_open_interfaces_dict := freshTable itfOf 0 (p1 :: p2 :: mid),
        open_interfaces_size := (p1 :: p2 :: mid).length,
        nextId := (p1 :: p2 :: mid).length, closed := [] } q (itfOf q)
    (by
      show lookupD (freshTable itfOf 0 (p1 :: p2 :: mid)) q = none
      rw [lookupD_eq_none, keys_freshTable]
      exact hq_not)
    (hload q (List.mem_cons_self _ _))
    (by
      show ((p2 :: mid) ++ [p1]).length + 1 > (p1 :: p2 :: mid).length
      simp only [List.length_append, List.length_cons, List.length_nil]
      omega)
  have hopen3c : open_gdal_interface fs
      { cached_open_interfaces := (p2 :: mid) ++ [p1],
        cached_open_interfaces_dict := freshTable itfOf 0 (p1 :: p2 :: mid),
        open_interfaces_size := (p1 :: p2 :: mid).length,
        nextId := (p1 :: p2 :: mid).length, closed := [] } q = .ok
      (⟨(p1 :: p2 :: mid).length, itfOf q⟩,
        { cached_open_interfaces := mid ++ [p1] ++ [q],
          cached_open_interfaces_dict :=
            (p1, ⟨0, itfOf p1⟩) ::
              (freshTable itfOf 2 mid ++ [(q, ⟨(p1 :: p2 :: mid).length, itfOf q⟩)]),
          open_interfaces_size := (p1 :: p2 :: mid).length,
          nextId := (p1 :: p2 :: mid).length + 1,
          closed := [1] }) := by
    simpa [freshTable, eraseD, lookupD, hp1p2, hp1p2.symm] using hopen3
  refine ⟨_, _, _, _, hfill, hhit, rfl, rfl, hopen3c, ?_, rfl, ?_⟩
  · show lookupD ((p1, ⟨0, itfOf p1⟩) ::
      (freshTable itfOf 2 mid ++ [(q, ⟨(p1 :: p2 :: mid).length, itfOf q⟩)])) p2 = none
    rw [lookupD_eq_none]
    intro hmem
    simp only [keys, List.map_cons, List.map_append, List.mem_cons, List.mem_append] at hmem
    rcases hmem with h | h | h
    · exact hp1p2 h.symm
    · rw [show List.map Prod.fst (freshTable itfOf 2 mid) = mid from keys_freshTable itfOf 2 mid] at h
      exact hp2_mid h
    · simp [keys] at h
      exact hp2q h
  · show lookupD ((p1, ⟨0, itfOf p1⟩) ::
      (freshTable itfOf 2 mid ++ [(q, ⟨(p1 :: p2 :: mid).length, itfOf q⟩)])) p1
        = some ⟨0, itfOf p1⟩
    simp [lookupD]

/-- Concrete run of the hit-then-evict scenario at capacity 2 with paths a,
b and the fresh path c on fsA. -/
theorem tile_cache_hit_moves_to_mru_witness :
    (∀ c t, lookupD c.cached_open_interfaces_dict "a" = some t →
      open_gdal_interface fsA c "a" = .ok
        (t, { c with cached_open_interfaces :=
                (c.cached_open_interfaces.erase "a") ++ ["a"] })) ∧
    (∃ st1 st2 t3 st3,
      acquireList fsA (initCache 2) ("a" :: "b" :: []) = .ok st1 ∧
      open_gdal_interface fsA st1 "a" = .ok (⟨0, itfA "a"⟩, st2) ∧
      st2.nextId = st1.nextId ∧
      st2.cached_open_interfaces = ("b" :: []) ++ ["a"] ∧
      open_gdal_interface fsA st2 "c" = .ok (t3, st3) ∧
      lookupD st3.cached_open_interfaces_dict "b" = none ∧
      st3.closed = [1] ∧
      lookupD st3.cached_open_interfaces_dict "a" = some ⟨0, itfA "a"⟩) :=
  tile_cache_hit_moves_to_mru fsA itfA 2 "a" "b" "c" [] rfl (by decide)
    (fun p _ => loadMetadata_fsA p)

/-- The internal well-formedness of the cache: the dict keys are the recency
list up to order, the recency list has no duplicates, and the recency list
fits the configured capacity. -/
def CacheInv (c : TileCache) : Prop :=
  (keys c.cached_open_interfaces_dict).Perm c.cached_open_interfaces ∧
  c.cached_open_interfaces.Nodup ∧
  c.cached_open_interfaces.length ≤ c.open_interfaces_size

theorem lookupD_mem_of_some (t : List (String × Tile)) (p : String) (v : Tile)
    (h : lookupD t p = some v) : p ∈ keys t := by
  by_contra hnot
  rw [(lookupD_eq_none t p).mpr hnot] at h
  cases h

/-- One successful _open_gdal_interface call on a well-formed cache of
capacity at least 1 keeps the cache well formed, leaves the acquired path at
the most recently used end, and does not change the capacity. -/
theorem open_gdal_interface_inv (fs : FileSystem) (c : TileCache) (p : String)
    (t : Tile) (c2 : TileCache)
    (hcap : 1 ≤ c.open_interfaces_size) (hinv : CacheInv c)
    (hstep : open_gdal_interface fs c p = .ok (t, c2)) :
    CacheInv c2 ∧ c2.cached_open_interfaces.getLast? = some p ∧
    c2.open_interfaces_size = c.open_interfaces_size := by
  obtain ⟨hperm, hnd, hlen⟩ := hinv
  cases hdp : lookupD c.cached_open_interfaces_dict p with
  | some t0 =>
    simp only [open_gdal_interface, hdp] at hstep
    simp only [Except.ok.injEq, Prod.mk.injEq] at hstep
    obtain ⟨rfl, rfl⟩ := hstep
    have hp_mem : p ∈ c.cached_open_interfaces :=
      hperm.mem_iff.mp (lookupD_mem_of_some _ _ _ hdp)
    refine ⟨⟨?_, ?_, ?_⟩, ?_, rfl⟩
    · exact hperm.trans ((List.perm_cons_erase hp_mem).trans
        (List.perm_append_singleton p _).symm)
    · rw [List.nodup_append]
      refine ⟨hnd.erase p, List.nodup_singleton p, ?_⟩
      intro a ha hb
      have hap : a = p := List.mem_singleton.mp hb
      subst hap
      exact hnd.not_mem_erase ha
    · have h1 : (c.cached_open_interfaces.erase p).length =
          c.cached_open_interfaces.length - 1 := List.length_erase_of_mem hp_mem
      have h2 : 1 ≤ c.cached_open_interfaces.length := List.length_pos.mpr
        (List.ne_nil_of_mem hp_mem)
      simp only [List.length_append, List.length_cons, List.length_nil, h1]
      omega
    · exact List.getLast?_concat _
  | none =>
    cases hload : loadMetadata fs p with
    | error e =>
      simp only [open_gdal_interface, hdp, hload] at hstep
      cases hstep
    | ok itf =>
      simp only [open_gdal_interface, hdp, hload] at hstep
      have hp_not : p ∉ c.cached_open_interfaces := by
        intro hc
        exact ((lookupD_eq_none _ _).mp hdp) (hperm.mem_iff.mpr hc)
      split at hstep
      · -- eviction branch
        rename_i hov
        simp only [Except.ok.injEq, Prod.mk.injEq] at hstep
        obtain ⟨rfl, rfl⟩ := hstep
        simp only [List.length_append, List.length_cons, List.length_nil] at hov
        have hrec_len : c.cached_open_interfaces.length = c.open_interfaces_size := by
          omega
        have hrec_ne : c.cached_open_interfaces ≠ [] := by
          intro hnil
          rw [hnil] at hrec_len
          simp at hrec_len
          omega
        obtain ⟨r0, rtail, hrec⟩ := List.exists_cons_of_ne_nil hrec_ne
        have hnd2 : (r0 :: rtail).Nodup := by rw [← hrec]; exact hnd
        have hperm2 : (keys (c.cached_open_interfaces_dict ++
            [(p, ⟨c.nextId, itf⟩)])).Perm (c.cached_open_interfaces ++ [p]) := by
          rw [keys_append]
          exact hperm.append (List.Perm.refl _)
        have hndr : (rtail ++ [p]).Nodup := by
          rw [List.nodup_append]
          refine ⟨(List.nodup_cons.mp hnd2).2, List.nodup_singleton p, ?_⟩
          intro a ha hb
          have hap : a = p := List.mem_singleton.mp hb
          subst hap
          apply hp_not
          rw [hrec]
          exact List.mem_cons_of_mem r0 ha
        rw [hrec]
        refine ⟨⟨?_, ?_, ?_⟩, ?_, rfl⟩
        · rw [keys_eraseD]
          have h3 := hperm2.erase ((c.cached_open_interfaces ++ [p]).headD p)
          rw [hrec] at h3
          simpa [List.erase_cons] using h3
        · simpa using hndr
        · have hlen2 : (r0 :: rtail).length = c.open_interfaces_size := by
            rw [← hrec]
            exact hrec_len
          simp only [List.length_cons] at hlen2
          simp only [List.cons_append, List.tail_cons, List.length_append,
            List.length_cons, List.length_nil]
          omega
        · simp only [List.cons_append, List.tail_cons]
          exact List.getLast?_concat _
      · -- still within capacity
        rename_i hov
        simp only [Except.ok.injEq, Prod.mk.injEq] at hstep
        obtain ⟨rfl, rfl⟩ := hstep
        simp only [List.length_append, List.length_cons, List.length_nil] at hov
        refine ⟨⟨?_, ?_, ?_⟩, ?_, rfl⟩
        · rw [keys_append]
          exact hperm.append (List.Perm.refl _)
        · rw [List.nodup_append]
          exact ⟨hnd, List.nodup_singleton p,
            fun a ha hb => (List.mem_singleton.mp hb ▸ hp_not) ha⟩
        · simp only [List.length_append, List.length_cons, List.length_nil]
          omega
        · exact List.getLast?_concat _

theorem acquireList_cons_err (fs : FileSystem) (c : TileCache) (p : String)
    (rest : List String) (e : String)
    (h : open_gdal_interface fs c p = .error e) :
    acquireList fs c (p :: rest) = .error e := by
  rw [acquireList, h]

/-- Invariant propagation along a whole successful acquire run. -/
theorem acquireList_inv (fs : FileSystem) (ps : List String) (c st : TileCache)
    (hcap : 1 ≤ c.open_interfaces_size) (hinv : CacheInv c)
    (h : acquireList fs c ps = .ok st) :
    CacheInv st ∧ st.open_interfaces_size = c.open_interfaces_size ∧
    (∀ p, ps.getLast? = some p → st.cached_open_interfaces.getLast? = some p) ∧
    (ps = [] → st = c) := by
  induction ps generalizing c with
  | nil =>
    rw [acquireList] at h
    obtain rfl : c = st := by simpa using h
    exact ⟨hinv, rfl, by simp, fun _ => rfl⟩
  | cons p rest ih =>
    cases hstep : open_gdal_interface fs c p with
    | error e =>
      rw [acquireList_cons_err fs c p rest e hstep] at h
      cases h
    | ok r =>
      obtain ⟨t, c2⟩ := r
      rw [acquireList_cons fs c p rest t c2 hstep] at h
      obtain ⟨hinv2, hlast2, hsize2⟩ :=
        open_gdal_interface_inv fs c p t c2 hcap ⟨hinv.1, hinv.2.1, hinv.2.2⟩ hstep
      obtain ⟨hinv3, hsize3, hlast3, hnil3⟩ := ih c2 (hsize2 ▸ hcap) hinv2 h
      refine ⟨hinv3, hsize3.trans hsize2, ?_, by simp⟩
      intro p0 hp0
      cases rest with
      | nil =>
        simp only [List.getLast?_singleton, Option.some.injEq] at hp0
        rw [hnil3 rfl, ← hp0]
        exact hlast2
      | cons r1 rs =>
        rw [List.getLast?_cons_cons] at hp0
        exact hlast3 p0 hp0

/-- Claim C4 (amended to capacities of at least 1): after any successful
acquire sequence from the empty cache, the dict never holds more entries
than the capacity, the recency sequence and the dict keys hold the same
paths, and the most recently acquired path sits at the end of the recency
sequence. -/
theorem cache_invariant_reachable (fs : FileSystem) (N : ℕ) (hcap : 1 ≤ N)
    (ps : List String) (st : TileCache)
    (h : acquireList fs (initCache N) ps = .ok st) :
    st.cached_open_interfaces_dict.length ≤ N ∧
    (∀ q, q ∈ keys st.cached_open_interfaces_dict ↔ q ∈ st.cached_open_interfaces) ∧
    (∀ p, ps.getLast? = some p → st.cached_open_interfaces.getLast? = some p) := by
  obtain ⟨⟨hperm, hnd, hlen⟩, hsize, hlast, _⟩ := acquireList_inv fs ps (initCache N) st
    (by simpa [initCache] using hcap)
    (by refine ⟨?_, ?_, ?_⟩ <;> simp [initCache, keys]) h
  refine ⟨?_, fun q => hperm.mem_iff, hlast⟩
  have hkl : (keys st.cached_open_interfaces_dict).length =
      st.cached_open_interfaces_dict.length := List.length_map _ _
  have := hperm.length_eq
  simp only [initCache] at hsize
  omega

/-- Claim C4 counterexample: with configured capacity 0 the very first
acquire returns normally but leaves an empty recency sequence, so the most
recently acquired path is not its last element. -/
theorem cache_invariant_cex :
    ∃ t st, open_gdal_interface fsA (initCache 0) "a" = .ok (t, st) ∧
      st.cached_open_interfaces.getLast? ≠ some "a" := by
  have h := open_evict fsA (initCache 0) "a" (itfA "a")
    (by rw [lookupD_eq_none]; simp [initCache, keys])
    (loadMetadata_fsA "a")
    (by simp [initCache])
  exact ⟨_, _, h, by simp [initCache]⟩

/-- Concrete instance of the amended invariant at capacity 1 after acquiring
the single path a on fsA. -/
theorem cache_invariant_reachable_witness :
    ([("a", (⟨0, itfA "a"⟩ : Tile))] : List (String × Tile)).length ≤ 1 ∧
    (∀ q, q ∈ keys [("a", (⟨0, itfA "a"⟩ : Tile))] ↔ q ∈ (["a"] : List String)) ∧
    (∀ p, (["a"] : List String).getLast? = some p →
      (["a"] : List String).getLast? = some p) :=
  cache_invariant_reachable fsA 1 (by omega) ["a"]
    { cached_open_interfaces := ["a"],
      cached_open_interfaces_dict := [("a", ⟨0, itfA "a"⟩)],
      open_interfaces_size := 1, nextId := 1, closed := [] }
    (by
      have h := acquireList_fill fsA itfA ["a"] (initCache 1)
        (by simp [initCache]) rfl (by simp [initCache]) (fun p _ => loadMetadata_fsA p)
      simpa [initCache, freshTable] using h)

/-- Claim C9: opening a raster fails by raising at load time in exactly two
situations, gdal.Open yielding no dataset or a singular geotransform (the
division by the zero determinant raises); a tile that loads successfully
stores a true inverse of the 2x2 pixel submatrix of its geotransform. -/
theorem loadMetadata_fails_iff (fs : FileSystem) (p : String) :
    ((∃ itf, loadMetadata fs p = .ok itf) ↔
      ∃ src, fs p = some src ∧ dev src.geo ≠ 0) ∧
    (∀ itf, loadMetadata fs p = .ok itf →
      dev itf.geo_transform ≠ 0 ∧
      itf.geo_transform_inv.t1 * itf.geo_transform.t1 +
        itf.geo_transform_inv.t2 * itf.geo_transform.t4 = 1 ∧
      itf.geo_transform_inv.t1 * itf.geo_transform.t2 +
        itf.geo_transform_inv.t2 * itf.geo_transform.t5 = 0 ∧
      itf.geo_transform_inv.t4 * itf.geo_transform.t1 +
        itf.geo_transform_inv.t5 * itf.geo_transform.t4 = 0 ∧
      itf.geo_transform_inv.t4 * itf.geo_transform.t2 +
        itf.geo_transform_inv.t5 * itf.geo_transform.t5 = 1) := by
  constructor
  · cases hfs : fs p with
    | none => simp [loadMetadata, hfs]
    | some src =>
      by_cases hd : dev src.geo = 0
      · simp [loadMetadata, hfs, hd]
      · simp [loadMetadata, hfs, hd]
  · intro itf h
    cases hfs : fs p with
    | none => simp [loadMetadata, hfs] at h
    | some src =>
      by_cases hd : dev src.geo = 0
      · simp [loadMetadata, hfs, hd] at h
      · simp only [loadMetadata, hfs, if_neg hd, Except.ok.injEq] at h
        subst h
        have hd2 : src.geo.t1 * src.geo.t5 - src.geo.t2 * src.geo.t4 ≠ 0 := by
          rw [dev] at hd
          exact hd
        refine ⟨hd, ?_, ?_, ?_, ?_⟩
        · show src.geo.t5 / dev src.geo * src.geo.t1 +
            -src.geo.t2 / dev src.geo * src.geo.t4 = 1
          rw [dev]
          field_simp
          ring
        · show src.geo.t5 / dev src.geo * src.geo.t2 +
            -src.geo.t2 / dev src.geo * src.geo.t5 = 0
          rw [dev]
          field_simp
          ring
        · show -src.geo.t4 / dev src.geo * src.geo.t1 +
            src.geo.t1 / dev src.geo * src.geo.t4 = 0
          rw [dev]
          field_simp
          ring
        · show -src.geo.t4 / dev src.geo * src.geo.t2 +
            src.geo.t1 / dev src.geo * src.geo.t5 = 1
          rw [dev]
          field_simp
          ring

/-- Claim C6: when the queried point lies outside every indexed bounding
box, the spatial index query is empty and lookup returns SEA_LEVEL = 0 with
the state unchanged. -/
theorem lookup_out_of_coverage (fs : FileSystem) (s : GDALTileInterface) (lat lng : ℚ)
    (h : ∀ it ∈ s.items,
      ¬ (it.left ≤ lat ∧ lat ≤ it.right ∧ it.bottom ≤ lng ∧ lng ≤ it.top)) :
    GDALTileInterface.lookup fs s lat lng = .ok (SEA_LEVEL, s) := by
  have hint : intersection s.items lat lng = [] := by
    rw [intersection, List.filter_eq_nil_iff]
    intro it hit
    simpa using h it hit
  rw [GDALTileInterface.lookup, hint]

/-- An empty index returns 0 for any point. -/
theorem lookup_out_of_coverage_witness :
    GDALTileInterface.lookup fsA ⟨[], false, initCache 5⟩ 0 0 =
      .ok (SEA_LEVEL, ⟨[], false, initCache 5⟩) :=
  lookup_out_of_coverage fsA ⟨[], false, initCache 5⟩ 0 0 (by simp)

/-- Claim C7: in both the non-cached and the fully cached mode, when the
sample read at the computed pixel is the no-data sentinel -32768 the lookup
returns 0, and otherwise it returns exactly that sample. -/
theorem lookup_no_data_sentinel (itf : GDALInterface) (c : CachedTile)
    (lat1 lon1 lat2 lon2 : ℚ) (g : ℚ × ℚ) (s1 s2 : ℤ)
    (h1 : itf.src.ct lon1 lat1 = some g)
    (h2 : npGet itf.src.band (pixelOf itf.geo_transform_inv g.1 g.2).2
      (pixelOf itf.geo_transform_inv g.1 g.2).1 = some s1)
    (h3 : npGet c.cache_array (pixelOf c.geo_transform_inv lon2 lat2).2
      (pixelOf c.geo_transform_inv lon2 lat2).1 = some s2) :
    itf.lookup lat1 lon1 = (if s1 = -32768 then SEA_LEVEL else s1) ∧
    c.lookup_cache lat2 lon2 = (if s2 = -32768 then SEA_LEVEL else s2) := by
  constructor
  · unfold GDALInterface.lookup
    rw [h1]
    simp only [lookupAfterCT]
    rw [h2]
    by_cases hs : s1 = -32768 <;> simp [sampleToElevation, hs]
  · unfold CachedTile.lookup_cache
    rw [h3]
    by_cases hs : s2 = -32768 <;> simp [sampleToElevation, hs]

/-- The fully cached fixture tile: one pixel holding the no-data sentinel. -/
def tileB : CachedTile := ⟨⟨0, 1, 0, 0, 0, -1⟩, [[-32768]]⟩

/-- Concrete sentinel check: the sample 5 is returned as is, the sentinel
sample maps to 0. -/
theorem lookup_no_data_sentinel_witness :
    (itfA "a").lookup 0 0 = (if (5 : ℤ) = -32768 then SEA_LEVEL else 5) ∧
    tileB.lookup_cache 0 0 = (if (-32768 : ℤ) = -32768 then SEA_LEVEL else -32768) :=
  lookup_no_data_sentinel (itfA "a") tileB 0 0 0 0 (0, 0) 5 (-32768)
    rfl
    (by norm_num [itfA, srcA, dev, pixelOf, pyInt, npGet, npIdx])
    (by norm_num [tileB, pixelOf, pyInt, npGet, npIdx])

/-- An index strictly outside the numpy-valid range [-n, n) raises
IndexError on that axis. -/
theorem npIdx_eq_none (n : ℕ) (i : ℤ) (h : i < -(n : ℤ) ∨ (n : ℤ) ≤ i) :
    npIdx n i = none := by
  unfold npIdx
  rw [if_neg (by omega), if_neg (by omega)]

/-- The 2-D read raises IndexError when the line index is outside [-rows,
rows), or when every row is shorter than the pixel index demands on both
ends. -/
theorem npGet_eq_none (rows : List (List ℤ)) (ylin xpix : ℤ)
    (h : ylin < -(rows.length : ℤ) ∨ (rows.length : ℤ) ≤ ylin ∨
      (∀ row ∈ rows, xpix < -(row.length : ℤ) ∨ (row.length : ℤ) ≤ xpix)) :
    npGet rows ylin xpix = none := by
  unfold npGet
  rcases h with h | h | h
  · rw [npIdx_eq_none rows.length ylin (Or.inl h), Option.none_bind]
  · rw [npIdx_eq_none rows.length ylin (Or.inr h), Option.none_bind]
  · cases hy : npIdx rows.length ylin with
    | none => rw [Option.none_bind]
    | some y =>
      rw [Option.some_bind]
      cases hrow : rows[y]? with
      | none => rw [Option.none_bind]
      | some row =>
        rw [Option.some_bind,
          npIdx_eq_none row.length xpix (h row (List.getElem?_mem hrow)),
          Option.none_bind]

/-- Claim C5 (amended): GDALInterface.lookup is total and maps every raised
fault to SEA_LEVEL: a reprojection failure, or a pixel read raising
IndexError — which happens exactly when an index leaves the numpy-valid
range [-size, size), not the raster range [0, size): a negative index
within [-size, -1] does not fault but wraps to the opposite edge (see the
counterexample), so out-of-raster-bounds inputs need not return 0. -/
theorem lookup_faults_return_sea_level (itf : GDALInterface) (lat lon : ℚ) :
    (itf.src.ct lon lat = none → itf.lookup lat lon = SEA_LEVEL) ∧
    (∀ g, itf.src.ct lon lat = some g →
      npGet itf.src.band (pixelOf itf.geo_transform_inv g.1 g.2).2
        (pixelOf itf.geo_transform_inv g.1 g.2).1 = none →
      itf.lookup lat lon = SEA_LEVEL) ∧
    (∀ g, itf.src.ct lon lat = some g →
      ((pixelOf itf.geo_transform_inv g.1 g.2).2 < -(itf.src.band.length : ℤ) ∨
        (itf.src.band.length : ℤ) ≤ (pixelOf itf.geo_transform_inv g.1 g.2).2 ∨
        (∀ row ∈ itf.src.band,
          (pixelOf itf.geo_transform_inv g.1 g.2).1 < -(row.length : ℤ) ∨
          (row.length : ℤ) ≤ (pixelOf itf.geo_transform_inv g.1 g.2).1)) →
      itf.lookup lat lon = SEA_LEVEL) := by
  refine ⟨?_, ?_, ?_⟩
  · intro h
    unfold GDALInterface.lookup
    rw [h]
    simp only [lookupAfterCT]
  · intro g hg hnone
    unfold GDALInterface.lookup
    rw [hg]
    simp only [lookupAfterCT]
    rw [hnone]
    simp only [sampleToElevation]
  · intro g hg hout
    unfold GDALInterface.lookup
    rw [hg]
    simp only [lookupAfterCT]
    rw [npGet_eq_none _ _ _ hout]
    simp only [sampleToElevation]

/-- A 1x2 south-up raster: two pixels 5 and 7, unit resolution, identity
reprojection; its inverse geotransform is the identity on both axes. -/
def srcB : RasterSrc :=
  { xSize := 2, ySize := 1, geo := ⟨0, 1, 0, 0, 0, 1⟩, band := [[5, 7]],
    ct := fun lon lat => some (lon, lat) }

/-- A filesystem on which every path opens as srcB. -/
def fsB : FileSystem := fun _ => some srcB

/-- The interface loadMetadata produces for b.tif on fsB. -/
def itfB : GDALInterface :=
  { tif_path := "b.tif", src := srcB, geo_transform := srcB.geo,
    geo_transform_inv :=
      ⟨srcB.geo.t0, srcB.geo.t5 / dev srcB.geo, -srcB.geo.t2 / dev srcB.geo,
       srcB.geo.t3, -srcB.geo.t4 / dev srcB.geo, srcB.geo.t1 / dev srcB.geo⟩ }

theorem loadMetadata_fsB : loadMetadata fsB "b.tif" = .ok itfB := by
  show (if dev srcB.geo = 0 then _ else _) = _
  rw [if_neg (by norm_num [dev, srcB])]
  rfl

/-- Claim C5 counterexample: on itfB the input lat 0, lon -1 computes the
pixel index (-1, 0), whose x component is outside the raster bounds
[0, xSize) = [0, 2); the claim demands the result 0, but lookup returns the
wrapped sample 7: numpy indexing wraps negative indices instead of
raising. -/
theorem lookup_out_of_bounds_cex :
    loadMetadata fsB "b.tif" = .ok itfB ∧
    itfB.computedPixel 0 (-1) = some (-1, 0) ∧
    ((-1 : ℤ) < 0 ∨ (itfB.src.xSize : ℤ) ≤ -1) ∧
    itfB.lookup 0 (-1) = 7 ∧
    (7 : ℤ) ≠ SEA_LEVEL := by
  have hpix : pixelOf itfB.geo_transform_inv (-1) 0 = (-1, 0) := by
    norm_num [pixelOf, pyInt, itfB, srcB, dev, Int.ceil_neg, Int.floor_one]
  refine ⟨loadMetadata_fsB, ?_, Or.inl (by norm_num), ?_, by norm_num [SEA_LEVEL]⟩
  · show (Option.map _ (some ((-1 : ℚ), (0 : ℚ)))) = _
    rw [show (Option.map (fun g => pixelOf itfB.geo_transform_inv g.1 g.2)
        (some ((-1 : ℚ), (0 : ℚ)))) =
        some (pixelOf itfB.geo_transform_inv (-1) 0) from rfl, hpix]
  · show lookupAfterCT itfB.src.band itfB.geo_transform_inv (some (-1, 0)) = 7
    simp only [lookupAfterCT]
    rw [hpix]
    show sampleToElevation (npGet [[5, 7]] 0 (-1)) = 7
    rw [show npGet [[5, 7]] 0 (-1) = some 7 by
      unfold npGet npIdx
      norm_num]
    simp [sampleToElevation]

/-- Concrete fault instance: on itfB the input lat 5, lon 0 computes the
line index 5, outside the numpy range of the single-row band, and lookup
returns 0. -/
theorem lookup_faults_return_sea_level_witness : itfB.lookup 5 0 = SEA_LEVEL :=
  (lookup_faults_return_sea_level itfB 5 0).2.2 (0, 5) rfl
    (Or.inr (Or.inl (by
      rw [show pixelOf itfB.geo_transform_inv ((0 : ℚ), (5 : ℚ)).1
          ((0 : ℚ), (5 : ℚ)).2 = (0, 5) by norm_num [pixelOf, pyInt, itfB, srcB, dev]]
      norm_num [itfB, srcB])))

/-- The cache fetch returns normally whenever the path is already cached or
its file loads. -/
theorem open_gdal_interface_isOk (fs : FileSystem) (c : TileCache) (path : String)
    (h : (lookupD c.cached_open_interfaces_dict path).isSome = true ∨
      ∃ itf, loadMetadata fs path = .ok itf) :
    ∃ t c2, open_gdal_interface fs c path = .ok (t, c2) := by
  cases hd : lookupD c.cached_open_interfaces_dict path with
  | some t =>
    refine ⟨t, { c with cached_open_interfaces :=
      (c.cached_open_interfaces.erase path) ++ [path] }, ?_⟩
    simp only [open_gdal_interface, hd]
  | none =>
    rcases h with h | ⟨itf, hload⟩
    · rw [hd] at h
      cases h
    · cases ho : open_gdal_interface fs c path with
      | error e =>
        simp only [open_gdal_interface, hd, hload] at ho
        split at ho <;> cases ho
      | ok r =>
        obtain ⟨t, c2⟩ := r
        exact ⟨t, c2, rfl⟩

/-- The fixture state for the counterexample: one indexed tile whose box is
the single point (0, 0) and whose catalog entry names the file gone.tif,
non cache_all mode, an empty cache of capacity 5. -/
def sGone : GDALTileInterface :=
  { items := [{ id := 1, left := 0, bottom := 0, right := 0, top := 0,
                obj := { file := some "gone.tif", coords := some (0, 0, 0, 0),
                         index_id := some 1, interface := none } }],
    cache_all := false, cache := initCache 5 }

/-- Claim C1 counterexample: when the catalog references a since-deleted
file (gdal.Open yields None on gone.tif), GDALTileInterface.lookup raises
the open exception to its caller instead of catching it and returning
SEA_LEVEL: the operation has no try/except of its own. -/
theorem tile_lookup_raises_cex :
    GDALTileInterface.lookup (fun _ => none) sGone 0 0 =
      .error ("Could not load GDAL file " ++ "gone.tif") := by
  have hint : intersection sGone.items 0 0 =
      [{ id := 1, left := 0, bottom := 0, right := 0, top := 0,
         obj := { file := some "gone.tif", coords := some (0, 0, 0, 0),
                  index_id := some 1, interface := none } }] := by
    simp [intersection, sGone]
  rw [GDALTileInterface.lookup, hint]
  rfl

/-- Claim C1 (amended): GDALTileInterface.lookup catches nothing itself; the
per-tile lookup it calls is total, so the only raised exceptions come from
resolving the first matched entry — a missing file key, an open failure on a
missing or undecodable file in non cache_all mode, or a missing interface
key in cache_all mode. Whenever that entry resolves (its file is already
cached or loads, or its stored instance is present) or the query is empty,
lookup returns normally. -/
theorem tile_lookup_total_when_resolvable (fs : FileSystem) (s : GDALTileInterface)
    (lat lng : ℚ)
    (h : ∀ it ∈ intersection s.items lat lng,
      (s.cache_all = false →
        ∃ path, it.obj.file = some path ∧
          ((lookupD s.cache.cached_open_interfaces_dict path).isSome = true ∨
            ∃ itf, loadMetadata fs path = .ok itf)) ∧
      (s.cache_all = true → it.obj.interface.isSome = true)) :
    ∃ r, GDALTileInterface.lookup fs s lat lng = .ok r := by
  cases hint : intersection s.items lat lng with
  | nil => exact ⟨(SEA_LEVEL, s), by rw [GDALTileInterface.lookup, hint]⟩
  | cons it rest =>
    have hit := h it (by rw [hint]; exact List.mem_cons_self it rest)
    cases hca : s.cache_all with
    | false =>
      obtain ⟨path, hfile, hopt⟩ := hit.1 hca
      obtain ⟨t, c2, hopen⟩ := open_gdal_interface_isOk fs s.cache path hopt
      refine ⟨(t.itf.lookup lat lng, { s with cache := c2 }), ?_⟩
      rw [GDALTileInterface.lookup, hint, hca]
      show resolveFile fs s lat lng it.obj.file = _
      rw [hfile]
      simp only [resolveFile]
      rw [hopen]
      simp only [afterOpen]
      rw [hca]
    | true =>
      obtain ⟨tile, htile⟩ := Option.isSome_iff_exists.mp (hit.2 hca)
      refine ⟨(tile.lookup_cache lat lng, s), ?_⟩
      rw [GDALTileInterface.lookup, hint, hca]
      show resolveCached s lat lng it.obj.interface = _
      rw [htile]
      simp only [resolveCached]

/-- The fixture state for the witness: the same single indexed tile but its
file a.tif loads on fsA. -/
def sLive : GDALTileInterface :=
  { items := [{ id := 1, left := 0, bottom := 0, right := 0, top := 0,
                obj := { file := some "a.tif", coords := some (0, 0, 0, 0),
                         index_id := some 1, interface := none } }],
    cache_all := false, cache := initCache 5 }

/-- Concrete instance: with the matched file loadable, lookup returns
normally. -/
theorem tile_lookup_total_when_resolvable_witness :
    ∃ r, GDALTileInterface.lookup fsA sLive 0 0 = .ok r :=
  tile_lookup_total_when_resolvable fsA sLive 0 0 (by
    intro it hit
    have : it ∈ sLive.items := List.mem_of_mem_filter hit
    simp only [sLive, List.mem_singleton] at this
    subst this
    refine ⟨fun _ => ⟨"a.tif", rfl, Or.inr ⟨itfA "a.tif", loadMetadata_fsA _⟩⟩,
      fun hc => ?_⟩
    simp [sLive] at hc)

/-- The interface loadMetadata produces for a loadable raster. -/
def mkItf (p : String) (src : RasterSrc) : GDALInterface :=
  { tif_path := p, src := src, geo_transform := src.geo,
    geo_transform_inv :=
      ⟨src.geo.t0, src.geo.t5 / dev src.geo, -src.geo.t2 / dev src.geo,
       src.geo.t3, -src.geo.t4 / dev src.geo, src.geo.t1 / dev src.geo⟩ }

theorem loadMetadata_ok_of (fs : FileSystem) (p : String) (src : RasterSrc)
    (hfs : fs p = some src) (hdev : dev src.geo ≠ 0) :
    loadMetadata fs p = .ok (mkItf p src) := by
  unfold loadMetadata
  rw [hfs]
  show (if dev src.geo = 0 then _ else _) = _
  rw [if_neg hdev]
  rfl

/-- A summary record whose recorded box is well ordered on both axes. -/
def GoodRec (r : SummaryRecord) : Prop :=
  r.coords.1 ≤ r.coords.2.1 ∧ r.coords.2.2.1 ≤ r.coords.2.2.2

/-- Catalog construction succeeds on loadable north-up east-positive
rasters, and every recorded box comes out well ordered. -/
theorem create_summary_json_ok (fs : FileSystem) (files : List String)
    (h : ∀ p ∈ files, ∃ src, fs p = some src ∧ dev src.geo ≠ 0 ∧
      0 ≤ src.geo.t1 ∧ src.geo.t5 ≤ 0) :
    ∃ rs, create_summary_json fs files = .ok rs ∧ ∀ r ∈ rs, GoodRec r := by
  induction files with
  | nil => exact ⟨[], rfl, by simp⟩
  | cons p rest ih =>
    obtain ⟨src, hfs, hdev, hx, hy⟩ := h p (List.mem_cons_self _ _)
    obtain ⟨rs, hrs, hgood⟩ := ih (fun q hq => h q (List.mem_cons_of_mem _ hq))
    refine ⟨recordOf p (mkItf p src) :: rs, ?_, ?_⟩
    · rw [create_summary_json, loadMetadata_ok_of fs p src hfs hdev, hrs]
      simp only [consRecord]
    · intro r hr
      rcases List.mem_cons.mp hr with rfl | hr2
      · constructor
        · show src.geo.t3 + (src.ySize : ℚ) * src.geo.t5 ≤ src.geo.t3
          nlinarith [mul_nonneg (Nat.cast_nonneg (α := ℚ) src.ySize)
            (neg_nonneg.mpr hy)]
        · show src.geo.t0 ≤ src.geo.t0 + (src.xSize : ℚ) * src.geo.t1
          nlinarith [mul_nonneg (Nat.cast_nonneg (α := ℚ) src.xSize) hx]
      · exact hgood r hr2

/-- The per-record step in non cache_all mode on a well-ordered box. -/
theorem itemFor_false_good (fs : FileSystem) (r : SummaryRecord) (hgood : GoodRec r) :
    itemFor fs false r = .ok
      { id := 1, left := r.coords.1, bottom := r.coords.2.2.1,
        right := r.coords.2.1, top := r.coords.2.2.2,
        obj := { file := some r.file, coords := some r.coords, index_id := some 1,
                 interface := none } } := by
  show insertItem r
    { file := some r.file, coords := some r.coords, index_id := some 1,
      interface := none } = _
  rw [insertItem, if_pos (show r.coords.1 ≤ r.coords.2.1 ∧
    r.coords.2.2.1 ≤ r.coords.2.2.2 from hgood)]

/-- Index construction succeeds on well-ordered boxes and every inserted box
stays well ordered. -/
theorem build_index_false_ok (fs : FileSystem) (rs : List SummaryRecord)
    (hgood : ∀ r ∈ rs, GoodRec r) :
    ∃ items, build_index fs false rs = .ok items ∧
      ∀ it ∈ items, it.left ≤ it.right ∧ it.bottom ≤ it.top := by
  induction rs with
  | nil => exact ⟨[], rfl, by simp⟩
  | cons r rest ih =>
    obtain ⟨items, hitems, hbox⟩ := ih (fun q hq => hgood q (List.mem_cons_of_mem _ hq))
    have hr := hgood r (List.mem_cons_self _ _)
    refine ⟨{ id := 1, left := r.coords.1, bottom := r.coords.2.2.1,
              right := r.coords.2.1, top := r.coords.2.2.2,
              obj := { file := some r.file, coords := some r.coords,
                       index_id := some 1, interface := none } } :: items, ?_, ?_⟩
    · rw [build_index, itemFor_false_good fs r hr, hitems]
      simp only [consItems]
    · intro it hit
      rcases List.mem_cons.mp hit with rfl | h2
      · exact ⟨hr.1, hr.2⟩
      · exact hbox it h2

/-- Inversion of a successful non cache_all index build: one item per
record, every one carrying id 1 and index_id 1. -/
theorem build_index_false_items (fs : FileSystem) (rs : List SummaryRecord)
    (items : List IndexItem) (hok : build_index fs false rs = .ok items) :
    items.length = rs.length ∧
    ∀ it ∈ items, it.id = 1 ∧ it.obj.index_id = some 1 := by
  induction rs generalizing items with
  | nil =>
    rw [build_index] at hok
    obtain rfl : ([] : List IndexItem) = items := by simpa using hok
    simp
  | cons r rest ih =>
    rw [build_index] at hok
    cases hi : itemFor fs false r with
    | error e =>
      rw [hi] at hok
      simp [consItems] at hok
    | ok it =>
      cases hrec : build_index fs false rest with
      | error e =>
        rw [hi, hrec] at hok
        simp [consItems] at hok
      | ok tailItems =>
        rw [hi, hrec] at hok
        simp only [consItems, Except.ok.injEq] at hok
        subst hok
        obtain ⟨hlen, hall⟩ := ih tailItems hrec
        have hit : it.id = 1 ∧ it.obj.index_id = some 1 := by
          have h2 : insertItem r
              { file := some r.file, coords := some r.coords, index_id := some 1,
                interface := none } = .ok it := hi
          rw [insertItem] at h2
          by_cases hbox : r.coords.1 ≤ r.coords.2.1 ∧ r.coords.2.2.1 ≤ r.coords.2.2.2
          · rw [if_pos hbox] at h2
            simp only [Except.ok.injEq] at h2
            subst h2
            exact ⟨rfl, rfl⟩
          · rw [if_neg hbox] at h2
            cases h2
        refine ⟨by simp [hlen], ?_⟩
        intro x hx
        rcases List.mem_cons.mp hx with rfl | h3
        · exact hit
        · exact hall x h3

/-- Claim C10: when the spatial index is built in non cache_all mode, every
record is inserted with the same identifier 1 and gets index_id 1 — the
counter is set once before the loop and never incremented — so for every
catalog of two or more tiles the inserted identifiers are not unique. -/
theorem build_index_ids_all_one (fs : FileSystem) (rs : List SummaryRecord)
    (items : List IndexItem)
    (hlen : 2 ≤ rs.length) (hok : build_index fs false rs = .ok items) :
    items.length = rs.length ∧
    (∀ it ∈ items, it.id = 1 ∧ it.obj.index_id = some 1) ∧
    ¬ (items.map (fun it => it.id)).Nodup := by
  obtain ⟨hlen2, hall⟩ := build_index_false_items fs rs items hok
  refine ⟨hlen2, hall, ?_⟩
  have hmap : items.map (fun it => it.id) = List.replicate items.length 1 := by
    rw [List.eq_replicate_iff]
    refine ⟨List.length_map _ _, ?_⟩
    intro b hb
    obtain ⟨it, hit, rfl⟩ := List.mem_map.mp hb
    exact (hall it hit).1
  rw [hmap, List.nodup_replicate]
  omega

/-- Two well-ordered unit-box records and the items they produce. -/
def rG1 : SummaryRecord := { file := "x.tif", coords := (0, 1, 0, 1) }

def rG2 : SummaryRecord := { file := "y.tif", coords := (0, 1, 0, 1) }

def iG1 : IndexItem :=
  { id := 1, left := 0, bottom := 0, right := 1, top := 1,
    obj := { file := some "x.tif", coords := some (0, 1, 0, 1), index_id := some 1,
             interface := none } }

def iG2 : IndexItem :=
  { id := 1, left := 0, bottom := 0, right := 1, top := 1,
    obj := { file := some "y.tif", coords := some (0, 1, 0, 1), index_id := some 1,
             interface := none } }

/-- Concrete two-tile build: both items carry id 1. -/
theorem build_index_ids_all_one_witness :
    ([iG1, iG2] : List IndexItem).length = ([rG1, rG2] : List SummaryRecord).length ∧
    (∀ it ∈ ([iG1, iG2] : List IndexItem), it.id = 1 ∧ it.obj.index_id = some 1) ∧
    ¬ (([iG1, iG2] : List IndexItem).map (fun it => it.id)).Nodup :=
  build_index_ids_all_one (fun _ => none) [rG1, rG2] [iG1, iG2] (by norm_num) (by
    rw [build_index, itemFor_false_good _ rG1 (by norm_num [rG1, GoodRec]),
      build_index, itemFor_false_good _ rG2 (by norm_num [rG2, GoodRec]),
      build_index]
    simp only [consItems]
    rfl)

/-- A well-ordered box item answers the point query at each of its four
corners. -/
theorem corner_mem_intersection (items : List IndexItem) (it : IndexItem)
    (hmem : it ∈ items) (hbox : it.left ≤ it.right ∧ it.bottom ≤ it.top)
    (lat lng : ℚ) (hlat : lat = it.left ∨ lat = it.right)
    (hlng : lng = it.bottom ∨ lng = it.top) :
    it ∈ intersection items lat lng := by
  rw [intersection, List.mem_filter]
  refine ⟨hmem, ?_⟩
  rw [decide_eq_true_eq]
  rcases hlat with rfl | rfl <;> rcases hlng with rfl | rfl
  · exact ⟨le_refl _, hbox.1, le_refl _, hbox.2⟩
  · exact ⟨le_refl _, hbox.1, hbox.2, le_refl _⟩
  · exact ⟨hbox.1, le_refl _, le_refl _, hbox.2⟩
  · exact ⟨hbox.1, le_refl _, hbox.2, le_refl _⟩

/-- Claim C8 (amended: for folders of loadable, north-up and east-positive
rasters, whose recorded boxes are therefore well ordered): the round trip of
building the catalog, serializing, loading back and building the index
succeeds, and every corner coordinate of every recorded box queries back to
a result set containing that tile; for an inverted box the insert raises
RTreeError instead (see the counterexample). -/
theorem catalog_roundtrip_corners (fs : FileSystem) (files : List String)
    (h : ∀ p ∈ files, ∃ src, fs p = some src ∧ dev src.geo ≠ 0 ∧
      0 ≤ src.geo.t1 ∧ src.geo.t5 ≤ 0) :
    ∃ items, catalog_roundtrip fs files = .ok items ∧
      ∀ it ∈ items, (it.left ≤ it.right ∧ it.bottom ≤ it.top) ∧
        ∀ lat lng, (lat = it.left ∨ lat = it.right) →
          (lng = it.bottom ∨ lng = it.top) → it ∈ intersection items lat lng := by
  obtain ⟨rs, hrs, hgood⟩ := create_summary_json_ok fs files h
  obtain ⟨items, hitems, hbox⟩ := build_index_false_ok fs rs hgood
  refine ⟨items, ?_, ?_⟩
  · rw [catalog_roundtrip, hrs]
    simp only [buildFromSummary, write_summary_json, read_summary_json]
    exact hitems
  · intro it hit
    exact ⟨hbox it hit, fun lat lng hlat hlng =>
      corner_mem_intersection items it hit (hbox it hit) lat lng hlat hlng⟩

/-- Claim C8 counterexample: on the south-up raster srcB (yres = 1 greater
than 0) the recorded box has latMin = 1 greater than latMax = 0, the rtree
insert raises RTreeError, and the round trip yields no index at all — in
particular no index in which corner queries return the tile. -/
theorem catalog_roundtrip_cex :
    catalog_roundtrip fsB ["b.tif"] = .error "RTreeError" ∧
    ¬ ∃ items, catalog_roundtrip fsB ["b.tif"] = .ok items ∧
      ∀ it ∈ items, ∀ lat lng, (lat = it.left ∨ lat = it.right) →
        (lng = it.bottom ∨ lng = it.top) → it ∈ intersection items lat lng := by
  have hsum : create_summary_json fsB ["b.tif"] = .ok [recordOf "b.tif" itfB] := by
    rw [create_summary_json, loadMetadata_fsB, create_summary_json]
    simp only [consRecord]
  have hco : (recordOf "b.tif" itfB).coords = ((1 : ℚ), 0, 0, 2) := by
    norm_num [recordOf, GDALInterface.get_corner_coords, itfB, srcB]
  have hitem : itemFor fsB false (recordOf "b.tif" itfB) = .error "RTreeError" := by
    show insertItem (recordOf "b.tif" itfB)
      { file := some (recordOf "b.tif" itfB).file,
        coords := some (recordOf "b.tif" itfB).coords, index_id := some 1,
        interface := none } = _
    rw [insertItem, if_neg (by rw [hco]; norm_num)]
  have herr : catalog_roundtrip fsB ["b.tif"] = .error "RTreeError" := by
    rw [catalog_roundtrip, hsum]
    simp only [buildFromSummary, write_summary_json, read_summary_json]
    rw [build_index, hitem]
    simp only [consItems]
  refine ⟨herr, ?_⟩
  rintro ⟨items, hok, _⟩
  rw [herr] at hok
  cases hok

/-- Concrete round trip on the single north-up tile a.tif of fsA. -/
theorem catalog_roundtrip_corners_witness :
    ∃ items, catalog_roundtrip fsA ["a.tif"] = .ok items ∧
      ∀ it ∈ items, (it.left ≤ it.right ∧ it.bottom ≤ it.top) ∧
        ∀ lat lng, (lat = it.left ∨ lat = it.right) →
          (lng = it.bottom ∨ lng = it.top) → it ∈ intersection items lat lng :=
  catalog_roundtrip_corners fsA ["a.tif"]
    (fun p _ => ⟨srcA, rfl, by norm_num [dev, srcA], by norm_num [srcA],
      by norm_num [srcA]⟩)

end OpenElevation
